import Mathlib

/-!
Verification of the D8 flow-direction inflow-graph engine
(`smoderp2d/flow_algorithm/D8.py`).

Embedding conventions:

* A flow-direction raster (`mat_fd`) is a `Raster`: dimensions `r × c`,
  a total value function `val` and a cell validity mask `mask`
  (`mask i j = true` models a numpy masked-array element, i.e. a no-data
  cell; a plain `ndarray` is the special case `mask = fun _ _ => false`).
  The nogis provider stores the codes in a float matrix; all codes that
  occur (`{1,2,4,8,16,32,64,128}` and the no-data value `-9999`) are
  integers that floats represent exactly, so cell values are embedded
  as `Int`.

* Python / numpy indexing `mat_fd[a][b]` accepts `a ∈ [-r, r)`
  (a negative index wraps to `a + r`) and raises `IndexError` otherwise;
  the same for the column index.  `pyIdx` embeds this index resolution,
  `pyGetE` the fallible element read (`Except PyErr`), and `lookupTry`
  the source's `try: value = mat_fd[a][b] except IndexError: value = -1`.

* Reading a masked element yields the `numpy.ma.masked` constant, whose
  comparison with any number is falsy; `PyVal.masked` together with
  `pyEq` embeds this.
-/

namespace D8

/-- Result of reading one raster element: a numeric value, or the
`numpy.ma.masked` constant for a masked (no-data) cell. -/
inductive PyVal where
  | int (v : Int)
  | masked
deriving DecidableEq

/-- Python exceptions relevant to the embedded code: `IndexError`
(raised by out-of-range indexing, the only exception the D8 code can
encounter) and a catch-all for any other exception kind. -/
inductive PyErr where
  | indexError
  | otherError
deriving DecidableEq

/-- A flow-direction raster: `r × c` grid of integer codes with a
cell validity mask (`true` = masked / no-data). -/
structure Raster where
  r : Nat
  c : Nat
  val : Nat → Nat → Int
  mask : Nat → Nat → Bool

/-- Python / numpy index resolution on an axis of length `n`:
indices in `[-n, n)` are valid, a negative index wraps to `a + n`,
anything else is an `IndexError` (`none`). -/
def pyIdx (n : Nat) (a : Int) : Option Nat :=
  if a < -(n : Int) ∨ (n : Int) ≤ a then none
  else if a < 0 then some (a + n).toNat
  else some a.toNat

/-- `mat_fd[a][b]`: fallible element read.  Both indices are resolved
with Python semantics; a masked element reads as `PyVal.masked`. -/
def pyGetE (m : Raster) (a b : Int) : Except PyErr PyVal :=
  match pyIdx m.r a, pyIdx m.c b with
  | some i, some j => .ok (if m.mask i j then .masked else .int (m.val i j))
  | _, _ => .error .indexError

/-- `try: value = mat_fd[a][b]  except IndexError: value = -1`. -/
def lookupTry (m : Raster) (a b : Int) : PyVal :=
  match pyGetE m a b with
  | .ok v => v
  | .error _ => .int (-1)

/-- Python `except IndexError` handler: an `IndexError` is replaced by
the handler value, any other exception propagates. -/
def catchIndex (x : Except PyErr PyVal) (h : PyVal) : Except PyErr PyVal :=
  match x with
  | .ok v => .ok v
  | .error .indexError => .ok h
  | .error .otherError => .error .otherError

/-- Python comparison `value == code` where `value` came from a raster
read (or the `-1` fallback): the masked constant compares falsy with
every number. -/
def pyEq : PyVal → Int → Bool
  | .int v, c => v == c
  | .masked, _ => false

/-- The `coco` table of `__directionsInflow` / `inflow_dir`:
entry `k` is `(Δrow, Δcol, code)` — the relative position of the
octant-`k` neighbor and the flow code that neighbor must hold for its
outflow to point at the current cell. -/
def coco : List (Int × Int × Int) :=
  [(-1, 1, 8), (-1, 0, 4), (-1, -1, 2), (0, -1, 1),
   (1, -1, 128), (1, 0, 64), (1, 1, 32), (0, 1, 16)]

/-- The `direction` list of `new_inflows`: the eight codes in strictly
descending order, the decode priority of `__directions`. -/
def direction : List Int := [128, 64, 32, 16, 8, 4, 2, 1]

/-- The `co` table of `__directions`: `co[y]` is the offset paired with
code `direction[y]`. -/
def co : List (Int × Int) :=
  [(1, -1), (1, 0), (1, 1), (0, 1), (-1, 1), (-1, 0), (-1, -1), (0, -1)]

/-- `__directionsInflow(mat_fd, i, j)`: accumulate, over the eight
octants, the codes of the neighbors whose flow points at `(i, j)`.
The source adds `value`, which the preceding equality test forces to
equal the octant's code `coco[k][2]`. -/
def directionsInflow (m : Raster) (i j : Int) : Int :=
  coco.foldl
    (fun acc e =>
      if pyEq (lookupTry m (i + e.1) (j + e.2.1)) e.2.2 then acc + e.2.2
      else acc)
    0

/-- The loop of `__directions`: `z` runs over `direction` while `y`
counts positions, so `direction[y] = z` at every step and the pair
`(z, co[y])` is an element of `direction.zip co`. -/
def directionsLoop : Int → List (Int × Int × Int) → List (Int × Int)
  | _, [] => []
  | inflow, p :: rest =>
    if p.1 ≤ inflow then p.2 :: directionsLoop (inflow - p.1) rest
    else directionsLoop inflow rest

/-- `__directions(inflow, direction)`: greedy binary decomposition of
the inflow bitmask into the paired offsets, highest code first. -/
def directions (inflow : Int) : List (Int × Int) :=
  directionsLoop inflow (direction.zip co)

/-- `new_inflows(mat_fd)`: for every cell, the decomposed inflow list.
The double `for`/`append` loop of the source builds exactly the
row-major map below. -/
def new_inflows (m : Raster) : List (List (List (Int × Int))) :=
  (List.range m.r).map fun i : Nat =>
    (List.range m.c).map fun j : Nat =>
      directions (directionsInflow m (i : Int) (j : Int))

/-- Modelled from the spec: `GridGlobals.masks` (defined in
`smoderp2d/core/general.py`, not among the shown sources) is the
"global masked-array state (a shared masking structure keyed by grid
geometry)"; it is embedded as an arbitrary ambient mask function. -/
def GlobalMasks : Type := Nat → Nat → Bool

/-- `in_fldir[i][j] = v`: assigning to a masked-array element stores
the value and clears that element's mask. -/
def setCell (mat : List (List (Int × Bool))) (i j : Nat) (v : Int) :
    List (List (Int × Bool)) :=
  mat.set i ((mat.getD i []).set j (v, false))

/-- `ma.masked_array(np.zeros([r, c], int), mask=GridGlobals.masks)`:
the initial `in_fldir` value, zeros masked by the ambient global mask. -/
def initFldir (m : Raster) (gm : GlobalMasks) : List (List (Int × Bool)) :=
  (List.range m.r).map fun i => (List.range m.c).map fun j => (0, gm i j)

/-- `new_inflows` with its whole local state: the returned `inflows`
list together with the `in_fldir` masked matrix the loop also fills
(the source drops `in_fldir`; it is kept here to make the dependence
on the ambient `GridGlobals.masks` explicit). -/
def new_inflowsFull (m : Raster) (gm : GlobalMasks) :
    List (List (List (Int × Int))) × List (List (Int × Bool)) :=
  (List.range m.r).foldl
    (fun st (i : Nat) =>
      let inner :=
        (List.range m.c).foldl
          (fun st2 (j : Nat) =>
            let in_dir := directionsInflow m (i : Int) (j : Int)
            (st2.1 ++ [directions in_dir], setCell st2.2 i j in_dir))
          ([], st.2)
      (st.1 ++ [inner.1], inner.2))
    ([], initFldir m gm)

/-- `inflow_dir(mat_fd, i, j)`: the 8-slot indicator vector, slot `k`
set to `1` when the octant-`k` neighbor's code points at `(i, j)`.
Unlike `__directionsInflow`, a negative neighbor index is checked
explicitly before the indexing attempt.  The source stores the float
values `0.0` / `1.0`, embedded as the integers they represent. -/
def inflow_dir (m : Raster) (i j : Int) : List Int :=
  coco.map fun e =>
    let a := i + e.1
    let b := j + e.2.1
    let value := if a < 0 ∨ b < 0 then PyVal.int (-1) else lookupTry m a b
    if pyEq value e.2.2 then 1 else 0

/-- `__directionsInflow` with the fallible indexing made explicit:
only an `IndexError` from the element read is caught. -/
def directionsInflowE (m : Raster) (i j : Int) : Except PyErr Int :=
  coco.foldlM
    (fun acc e => do
      let value ← catchIndex (pyGetE m (i + e.1) (j + e.2.1)) (.int (-1))
      pure (if pyEq value e.2.2 then acc + e.2.2 else acc))
    0

/-- `inflow_dir` with the fallible indexing made explicit. -/
def inflow_dirE (m : Raster) (i j : Int) : Except PyErr (List Int) :=
  coco.mapM fun e => do
    let a := i + e.1
    let b := j + e.2.1
    let value ←
      if a < 0 ∨ b < 0 then pure (PyVal.int (-1))
      else catchIndex (pyGetE m a b) (.int (-1))
    pure (if pyEq value e.2.2 then 1 else 0)

/-- `new_inflows` with the fallible indexing made explicit. -/
def new_inflowsE (m : Raster) :
    Except PyErr (List (List (List (Int × Int)))) :=
  (List.range m.r).mapM fun i : Nat =>
    (List.range m.c).mapM fun j : Nat => do
      let d ← directionsInflowE m (i : Int) (j : Int)
      pure (directions d)

/-- The eight valid D8 codes (`src` order of appearance). -/
def validCodes : List Int := [1, 2, 4, 8, 16, 32, 64, 128]

/-- A well-formed raster: every in-domain cell is masked, holds a valid
code, or holds the no-data sentinel `-9999` set by the nogis provider. -/
def wellFormed (m : Raster) : Prop :=
  ∀ i, i < m.r → ∀ j, j < m.c →
    m.mask i j = true ∨ m.val i j ∈ validCodes ∨ m.val i j = -9999

/-- Entry `k` of the `coco` table. -/
def cocoGet (k : Fin 8) : Int × Int × Int := coco.getD k (0, 0, 0)

/-- Per-octant match bit of `__directionsInflow` at cell `(i, j)`:
whether the octant-`k` neighbor read resolves to that octant's code. -/
def matchVec (m : Raster) (i j : Int) (k : Fin 8) : Bool :=
  pyEq (lookupTry m (i + (cocoGet k).1) (j + (cocoGet k).2.1)) (cocoGet k).2.2

/-- Bitmask sum of the matched octant codes, accumulated in `coco`
order exactly as `__directionsInflow` does. -/
def cocoSum (g : Fin 8 → Bool) : Int :=
  (List.finRange 8).foldl
    (fun acc k => if g k then acc + (cocoGet k).2.2 else acc) 0

/-- Subset sum of codes in decode order: the bitmask a raster pattern
selecting exactly the octants in `g` (in `direction` order) produces. -/
def dirSum (g : Fin 8 → Bool) : Int :=
  (List.finRange 8).foldl
    (fun acc k => if g k then acc + direction.getD k 0 else acc) 0

/-- The offsets paired (positionally, via `direction.zip co`) with the
selected codes, in the canonical strictly-descending code order. -/
def dirOffsets (g : Fin 8 → Bool) : List (Int × Int) :=
  (List.finRange 8).filterMap fun k =>
    if g k then some (co.getD k (0, 0)) else none

/-- An offset is one of the eight unit neighbor offsets: components in
`{-1, 0, 1}` and not `(0, 0)`. -/
def offsetOK (p : Int × Int) : Bool :=
  (p.1 == -1 || p.1 == 0 || p.1 == 1) &&
    (p.2 == -1 || p.2 == 0 || p.2 == 1) &&
    !(p.1 == 0 && p.2 == 0)

/-- An offset is not the self offset `(0, 0)`. -/
def notSelf (p : Int × Int) : Bool := !(p.1 == 0 && p.2 == 0)

/-- The 10 × 1 south-flowing raster built by the nogis provider:
`data['r'] = 10`, `data['c'] = 1`, `data['mat_fd'].fill(4)`. -/
def mat10 : Raster := ⟨10, 1, fun _ _ => 4, fun _ _ => false⟩

/-- A 1 × 1 raster holding the single code `v`, unmasked. -/
def mat1 (v : Int) : Raster := ⟨1, 1, fun _ _ => v, fun _ _ => false⟩

/-- The 3 × 3 raster whose eight border cells all point their flow code
at the center cell `(1, 1)` (the center's own code, 4, is irrelevant to
its inflow list). -/
def mat3 : Raster :=
  ⟨3, 3,
   fun i j => (([[2, 4, 8], [1, 4, 16], [128, 64, 32]].getD i []).getD j 0),
   fun _ _ => false⟩

/-- A 2 × 1 raster, both cells holding code 4 (south), with the bottom
cell `(1, 0)` masked. -/
def mat2m : Raster := ⟨2, 1, fun _ _ => 4, fun i _ => i == 1⟩

/-- A 1 × 1 raster equal to `mat1 4` on the domain cell `(0, 0)` but with
different values everywhere outside the domain. -/
def mat1b : Raster :=
  ⟨1, 1, fun i j => if i = 0 ∧ j = 0 then 4 else 999, fun _ _ => false⟩

end D8

namespace D8

theorem pyIdx_lt {n : Nat} {a : Int} {k : Nat} (h : pyIdx n a = some k) :
    k < n := by
  unfold pyIdx at h
  split at h
  · exact absurd h (by simp)
  · rename_i h1
    push_neg at h1
    split at h
    · simp only [Option.some.injEq] at h
      omega
    · simp only [Option.some.injEq] at h
      omega

theorem directionsLoop_sublist (x : Int) (l : List (Int × Int × Int)) :
    List.Sublist (directionsLoop x l) (l.map Prod.snd) := by
  induction l generalizing x with
  | nil => simp [directionsLoop]
  | cons p rest ih =>
    simp only [directionsLoop, List.map_cons]
    split
    · exact List.Sublist.cons₂ _ (ih _)
    · exact List.Sublist.cons _ (ih _)

theorem directions_sublist (x : Int) : List.Sublist (directions x) co := by
  have h := directionsLoop_sublist x (direction.zip co)
  have he : (direction.zip co).map Prod.snd = co := by decide
  rwa [he] at h

theorem catchIndex_pyGetE (m : Raster) (a b : Int) :
    catchIndex (pyGetE m a b) (.int (-1)) = .ok (lookupTry m a b) := by
  simp only [catchIndex, lookupTry, pyGetE]
  cases pyIdx m.r a <;> cases pyIdx m.c b <;> rfl

theorem foldlM_except_ok {α β ε : Type} (f : β → α → Except ε β)
    (g : β → α → β) (h : ∀ b a, f b a = .ok (g b a)) :
    ∀ (l : List α) (b : β), l.foldlM f b = .ok (l.foldl g b) := by
  intro l
  induction l with
  | nil => intro b; rfl
  | cons a t ih =>
    intro b
    show f b a >>= (fun b2 => t.foldlM f b2) = _
    rw [h]
    show t.foldlM f (g b a) = _
    rw [ih]
    rfl

theorem mapM_except_ok {α β ε : Type} (f : α → Except ε β) (g : α → β)
    (l : List α) (h : ∀ a ∈ l, f a = .ok (g a)) :
    l.mapM f = .ok (l.map g) := by
  induction l with
  | nil => rfl
  | cons a t ih =>
    rw [List.mapM_cons, h a (by simp), List.map_cons,
      ih (fun x hx => h x (by simp [hx]))]
    rfl

theorem directionsInflowE_ok (m : Raster) (i j : Int) :
    directionsInflowE m i j = .ok (directionsInflow m i j) := by
  unfold directionsInflowE directionsInflow
  refine foldlM_except_ok _ _ (fun b e => ?_) coco 0
  rw [catchIndex_pyGetE]
  rfl

theorem inflow_dirE_ok (m : Raster) (i j : Int) :
    inflow_dirE m i j = .ok (inflow_dir m i j) := by
  unfold inflow_dirE inflow_dir
  refine mapM_except_ok _ _ coco (fun e _ => ?_)
  by_cases hg : i + e.1 < 0 ∨ j + e.2.1 < 0
  · simp only [hg, if_pos]
    rfl
  · simp only [hg, if_neg, not_false_iff]
    rw [catchIndex_pyGetE]
    rfl

theorem new_inflowsE_ok (m : Raster) :
    new_inflowsE m = .ok (new_inflows m) := by
  unfold new_inflowsE new_inflows
  refine mapM_except_ok _ _ _ (fun i _ => ?_)
  refine mapM_except_ok _ _ _ (fun j _ => ?_)
  rw [directionsInflowE_ok]
  rfl

theorem directionsInflow_eq_cocoSum (m : Raster) (i j : Int) :
    directionsInflow m i j = cocoSum (matchVec m i j) := rfl

set_option maxRecDepth 8000 in
theorem mem_directions_cocoSum (g : Fin 8 → Bool) (k : Fin 8) :
    ((cocoGet k).1, (cocoGet k).2.1) ∈ directions (cocoSum g) ↔
      g k = true := by
  revert g k
  decide

end D8

namespace D8

theorem getD_map_range {α : Type} (f : Nat → α) (n i : Nat) (d : α) :
    ((List.range n).map f).getD i d = if i < n then f i else d := by
  rcases Nat.lt_or_ge i n with h | h
  · simp [List.getD_eq_getElem?_getD, List.getElem?_map, List.getElem?_range h, h]
  · have hn : (List.range n)[i]? = none := by
      rw [List.getElem?_eq_none]
      simpa using h
    simp [List.getD_eq_getElem?_getD, List.getElem?_map, hn, Nat.not_lt.mpr h]

theorem new_inflows_entry (m : Raster) (i j : Nat) :
    ((new_inflows m).getD i []).getD j [] =
      if i < m.r ∧ j < m.c then directions (directionsInflow m i j) else [] := by
  unfold new_inflows
  rw [getD_map_range]
  by_cases hi : i < m.r
  · simp only [hi, if_true, true_and]
    rw [getD_map_range]
  · simp [hi]

theorem pyGetE_congr (m m' : Raster) (hr : m.r = m'.r) (hc : m.c = m'.c)
    (hv : ∀ i, i < m.r → ∀ j, j < m.c →
      m.val i j = m'.val i j ∧ m.mask i j = m'.mask i j)
    (a b : Int) : pyGetE m a b = pyGetE m' a b := by
  unfold pyGetE
  rw [← hr, ← hc]
  cases ha : pyIdx m.r a <;> cases hb : pyIdx m.c b
  · rfl
  · rfl
  · rfl
  · rename_i i' j'
    obtain ⟨e1, e2⟩ := hv i' (pyIdx_lt ha) j' (pyIdx_lt hb)
    simp [e1, e2]

theorem directionsInflow_congr (m m' : Raster) (hr : m.r = m'.r)
    (hc : m.c = m'.c)
    (hv : ∀ i, i < m.r → ∀ j, j < m.c →
      m.val i j = m'.val i j ∧ m.mask i j = m'.mask i j)
    (i j : Int) : directionsInflow m i j = directionsInflow m' i j := by
  have hl : lookupTry m = lookupTry m' := by
    funext a b
    unfold lookupTry
    rw [pyGetE_congr m m' hr hc hv]
  unfold directionsInflow
  rw [hl]

theorem new_inflows_congr (m m' : Raster) (hr : m.r = m'.r) (hc : m.c = m'.c)
    (hv : ∀ i, i < m.r → ∀ j, j < m.c →
      m.val i j = m'.val i j ∧ m.mask i j = m'.mask i j) :
    new_inflows m = new_inflows m' := by
  unfold new_inflows
  rw [hr, hc]
  apply List.map_congr_left
  intro i _
  apply List.map_congr_left
  intro j _
  rw [directionsInflow_congr m m' hr hc hv]

theorem inner_loop_fst (m : Raster) (i : Nat) (l : List Nat) :
    ∀ (acc : List (List (Int × Int))) (fl : List (List (Int × Bool))),
      (l.foldl
        (fun st2 (j : Nat) =>
          let in_dir := directionsInflow m (i : Int) (j : Int)
          (st2.1 ++ [directions in_dir], setCell st2.2 i j in_dir))
        (acc, fl)).1 =
      acc ++ l.map fun j : Nat => directions (directionsInflow m i j) := by
  induction l with
  | nil => intro acc fl; simp
  | cons a t ih =>
    intro acc fl
    rw [List.foldl_cons]
    exact (ih (acc ++ [directions (directionsInflow m i a)])
      (setCell fl i a (directionsInflow m i a))).trans (by simp)

theorem new_inflowsFull_fst (m : Raster) (gm : GlobalMasks) :
    (new_inflowsFull m gm).1 = new_inflows m := by
  unfold new_inflowsFull new_inflows
  have main : ∀ (l : List Nat) (acc : List (List (List (Int × Int))))
      (fl : List (List (Int × Bool))),
      (l.foldl
        (fun st (i : Nat) =>
          let inner :=
            (List.range m.c).foldl
              (fun st2 (j : Nat) =>
                let in_dir := directionsInflow m (i : Int) (j : Int)
                (st2.1 ++ [directions in_dir], setCell st2.2 i j in_dir))
              ([], st.2)
          (st.1 ++ [inner.1], inner.2))
        (acc, fl)).1 =
      acc ++ l.map fun i : Nat =>
        (List.range m.c).map fun j : Nat =>
          directions (directionsInflow m i j) := by
    intro l
    induction l with
    | nil => intro acc fl; simp
    | cons a t ih =>
      intro acc fl
      rw [List.foldl_cons]
      refine (ih _ _).trans ?_
      rw [inner_loop_fst m a (List.range m.c) [] fl]
      simp
  exact main (List.range m.r) [] (initFldir m gm)

end D8

namespace D8

/-- C1: for the 10 × 1 all-south raster the code records the inflow list
`[(-1, 0)]` for EVERY cell — also for the topmost cell `(0, 0)`, whose
"neighbor above" read `mat_fd[-1][0]` wraps (Python negative indexing)
to the bottom row instead of raising the `IndexError` the handler
expects, so the claimed empty topmost list does not hold on the code. -/
theorem south_grid_topmost_cell_wraps :
    new_inflows mat10 = List.replicate 10 [[(-1, 0)]] := by decide

/-- C2: on the 1 × 1 raster holding code 4 the single cell's inflow list
is `[(-1, 0)]`, not `[]`: the out-of-domain neighbor lookup at row `-1`
wraps back to the cell itself, so an out-of-domain coordinate does
contribute an offset, contrary to the claim. -/
theorem one_cell_raster_self_inflow :
    new_inflows (mat1 4) = [[[(-1, 0)]]] := by decide

/-- C3: for every subset of the eight codes (given as a selection
`g` over the positions of the descending `direction` list),
`__directions` applied to the subset's sum returns exactly the offsets
positionally paired with the selected codes, in strictly descending
code order; the empty subset gives `[]` and singletons the one paired
offset. -/
theorem decompose_complete :
    ∀ g : Fin 8 → Bool, directions (dirSum g) = dirOffsets g := by
  set_option maxRecDepth 8000 in decide

/-- C4: the two views disagree: on the 1 × 1 raster holding code 4 the
cell's `new_inflows` entry contains the octant offset `(-1, 0)` while
`inflow_dir` returns the all-zero vector — the out-of-bounds handling
of the two forms is not identical (`inflow_dir` checks negative indices
explicitly, `__directionsInflow` lets them wrap). -/
theorem graph_and_indicator_disagree :
    ((new_inflows (mat1 4)).getD 0 []).getD 0 [] = [(-1, 0)] ∧
      inflow_dir (mat1 4) 0 0 = [0, 0, 0, 0, 0, 0, 0, 0] := by decide

/-- C5: over any well-formed raster both operations are total: the
embeddings that track every fallible indexing step always return
`Except.ok` (of the plain results), for every target coordinate —
no exception escapes any in-bounds or out-of-bounds indexing. -/
theorem operations_total (m : Raster) (_h : wellFormed m) :
    new_inflowsE m = .ok (new_inflows m) ∧
      ∀ i j : Int, inflow_dirE m i j = .ok (inflow_dir m i j) :=
  ⟨new_inflowsE_ok m, fun i j => inflow_dirE_ok m i j⟩

theorem operations_total_witness :
    wellFormed mat10 ∧ new_inflowsE mat10 = .ok (new_inflows mat10) :=
  ⟨by unfold wellFormed; decide,
    (operations_total mat10 (by unfold wellFormed; decide)).1⟩

/-- C6: on a 1 × 1 raster holding any valid code, `inflow_dir` queried
at the single cell returns the all-zero 8-vector: every neighbor
coordinate is out of bounds and resolves to "no inflow", never to an
exception. -/
theorem one_cell_indicator_all_zero (v : Int) (_h : v ∈ validCodes) :
    inflow_dir (mat1 v) 0 0 = List.replicate 8 0 := rfl

theorem one_cell_indicator_all_zero_witness :
    (4 : Int) ∈ validCodes ∧ inflow_dir (mat1 4) 0 0 = List.replicate 8 0 :=
  ⟨by decide, one_cell_indicator_all_zero 4 (by decide)⟩

/-- C7: on the 3 × 3 raster whose eight border cells all point at the
center, the center cell's inflow list is exactly `co` — all eight unit
offsets, each exactly once (`co` is nodup, has length 8, and consists
of unit offsets only); and on every raster no cell's inflow list ever
contains the self offset `(0, 0)`. -/
theorem center_full_inflow_no_self_loops :
    ((new_inflows mat3).getD 1 []).getD 1 [] = co ∧
      co.Nodup ∧ co.length = 8 ∧ co.all offsetOK = true ∧
      ∀ (m : Raster) (i j : Nat),
        (((new_inflows m).getD i []).getD j []).all notSelf = true := by
  refine ⟨by decide, by decide, by decide, by decide, fun m i j => ?_⟩
  rw [new_inflows_entry]
  split
  · rw [List.all_eq_true]
    intro p hp
    have hpco : p ∈ co := (directions_sublist _).subset hp
    have hco : ∀ q ∈ co, notSelf q = true := by decide
    exact hco p hpco
  · rfl

/-- C8: every inflow list `new_inflows` produces is well-formed: length
at most 8, no duplicate offsets, and every element is a unit offset
(components in `{-1, 0, 1}`, never `(0, 0)`). -/
theorem inflow_lists_wellformed (m : Raster) (i j : Nat) :
    (((new_inflows m).getD i []).getD j []).length ≤ 8 ∧
      (((new_inflows m).getD i []).getD j []).Nodup ∧
      (((new_inflows m).getD i []).getD j []).all offsetOK = true := by
  rw [new_inflows_entry]
  split
  · refine ⟨le_trans (directions_sublist _).length_le (by decide), ?_, ?_⟩
    · exact List.Nodup.sublist (directions_sublist _) (by decide)
    · rw [List.all_eq_true]
      intro p hp
      have hpco : p ∈ co := (directions_sublist _).subset hp
      have hco : ∀ q ∈ co, offsetOK q = true := by decide
      exact hco p hpco
  · exact ⟨by simp, List.nodup_nil, rfl⟩

/-- C9: `new_inflows` is deterministic and free of hidden state: the
returned graph is the same for any ambient `GridGlobals.masks` value,
and for any two rasters that agree element-wise on their (equal)
domains. -/
theorem new_inflows_deterministic (m m' : Raster) (gm gm' : GlobalMasks)
    (hr : m.r = m'.r) (hc : m.c = m'.c)
    (hv : ∀ i, i < m.r → ∀ j, j < m.c →
      m.val i j = m'.val i j ∧ m.mask i j = m'.mask i j) :
    (new_inflowsFull m gm).1 = (new_inflowsFull m' gm').1 := by
  rw [new_inflowsFull_fst, new_inflowsFull_fst,
    new_inflows_congr m m' hr hc hv]

theorem new_inflows_deterministic_witness :
    (new_inflowsFull (mat1 4) fun _ _ => false).1 =
      (new_inflowsFull mat1b fun _ _ => true).1 :=
  new_inflows_deterministic (mat1 4) mat1b (fun _ _ => false)
    (fun _ _ => true) rfl rfl (by decide)

/-- C10 (counterexample): masked cells are NOT excluded from graph
construction — on the 2 × 1 south-flowing raster with a masked bottom
cell, `new_inflows` still records the nonempty inflow list `[(-1, 0)]`
for that masked cell. -/
theorem masked_cell_gets_inflow_entry :
    mat2m.mask 1 0 = true ∧
      ((new_inflows mat2m).getD 1 []).getD 0 [] = [(-1, 0)] := by decide

/-- C10: a neighbor that reads as masked, or that holds the no-data
sentinel `-9999`, never contributes inflow: that octant's offset does
not appear in the cell's `new_inflows` entry and the corresponding
`inflow_dir` slot is 0. -/
theorem masked_or_nodata_neighbor_no_inflow (m : Raster) (i j : Int)
    (k : Fin 8)
    (h : lookupTry m (i + (cocoGet k).1) (j + (cocoGet k).2.1) = .masked ∨
      lookupTry m (i + (cocoGet k).1) (j + (cocoGet k).2.1) = .int (-9999)) :
    ((cocoGet k).1, (cocoGet k).2.1) ∉
        directions (directionsInflow m i j) ∧
      (inflow_dir m i j).getD k 0 = 0 := by
  have hcode : ∀ k' : Fin 8,
      pyEq PyVal.masked (cocoGet k').2.2 = false ∧
        pyEq (PyVal.int (-9999)) (cocoGet k').2.2 = false ∧
        pyEq (PyVal.int (-1)) (cocoGet k').2.2 = false := by decide
  have hm : matchVec m i j k = false := by
    unfold matchVec
    rcases h with h | h <;> rw [h]
    · exact (hcode k).1
    · exact (hcode k).2.1
  constructor
  · rw [directionsInflow_eq_cocoSum]
    intro hmem
    rw [mem_directions_cocoSum] at hmem
    rw [hm] at hmem
    exact Bool.false_ne_true hmem
  · have hslot : (inflow_dir m i j).getD k 0 =
        if pyEq
            (if i + (cocoGet k).1 < 0 ∨ j + (cocoGet k).2.1 < 0
              then PyVal.int (-1)
              else lookupTry m (i + (cocoGet k).1) (j + (cocoGet k).2.1))
            (cocoGet k).2.2
          then 1 else 0 := by
      fin_cases k <;> rfl
    rw [hslot]
    by_cases hg : i + (cocoGet k).1 < 0 ∨ j + (cocoGet k).2.1 < 0
    · rw [if_pos hg, (hcode k).2.2]
      rfl
    · rw [if_neg hg]
      rcases h with h | h <;> rw [h]
      · rw [(hcode k).1]
        rfl
      · rw [(hcode k).2.1]
        rfl

theorem masked_neighbor_no_inflow_witness :
    lookupTry mat2m (0 + (cocoGet 1).1) (0 + (cocoGet 1).2.1) =
        PyVal.masked ∧
      ((cocoGet 1).1, (cocoGet 1).2.1) ∉
        directions (directionsInflow mat2m 0 0) :=
  ⟨by decide, (masked_or_nodata_neighbor_no_inflow mat2m 0 0 1
    (Or.inl (by decide))).1⟩

end D8
